import Mathlib

/-!
# Verification of the TeamCity REST client (package `teamcity`)

Shallow embedding of `client.go`.  Conventions:

* A Go `error` value is `Option String` (`none` = nil error).
* A unit of work `func() error` that may be invoked several times is a
  function `Nat → Option String` from the invocation index (0-based) to the
  error that invocation produces.  The embedding of `withRetry` additionally
  returns the number of invocations performed, as ghost instrumentation; the
  first component of the pair is the Go return value.
* Go strings are `String` where only equality matters and `List Char`
  where character-level reasoning is needed (`addProtocol`).
* A Go slice `[]T` is `Option (List T)`: `none` is the nil slice (what a
  JSON `null` or an absent key decodes to), `some l` a non-nil slice.
* A Go pointer `*T` obtained from JSON decoding is `Option T`.
* JSON values are the inductive `Json` below; each anonymous response
  struct of `client.go` gets a named structure and a decode function that
  mirrors `encoding/json` semantics for that declared shape: unknown
  object keys are ignored, keys are matched case-insensitively with the
  last occurrence winning, `null` leaves a field at its zero value, and a
  type mismatch is a decode error.
-/

namespace Teamcity

/-! ## JSON values -/

/-- A parsed JSON value. Numbers are restricted to integers: the only
numeric fields the claims touch are integral (`count`, build `id`). -/
inductive Json where
  | null : Json
  | bool : Bool → Json
  | num : Int → Json
  | str : String → Json
  | arr : List Json → Json
  | obj : List (String × Json) → Json

/-- Lower-case a string character-wise (Go `strings.ToLower` for the
ASCII keys that occur here). -/
def lowerStr (s : String) : String :=
  String.mk (s.toList.map Char.toLower)

/-- Field lookup as `encoding/json` performs it for a struct field: object
members are processed in order and each member whose name matches the
field (case-insensitively) overwrites the field, so the last match wins. -/
def Json.lookupCI (kvs : List (String × Json)) (key : String) : Option Json :=
  kvs.foldl (fun acc kv => if lowerStr kv.1 = lowerStr key then some kv.2 else acc) none

/-- Exact-key lookup, used to state what an *emitted* JSON object contains. -/
def Json.getKey (j : Json) (key : String) : Option Json :=
  match j with
  | .obj kvs => kvs.foldl (fun acc kv => if kv.1 = key then some kv.2 else acc) none
  | _ => none

/-! ## The retry policy (`withRetry`, client.go:345-355)

```go
func withRetry(retries int, f func() error) (err error) {
    for i := 0; i < retries; i++ {
        err = f()
        if err != nil {
            log.Printf("Retry: %v / %v, error: %v\n", i, retries, err)
        } else {
            return
        }
    }
    return
}
```
-/

/-- Loop body of `withRetry`: `fuel` iterations of the `for` loop remain,
`calls` invocations of `f` have happened, `err` is the current value of the
named return variable.  Returns the final `err` and the total number of
invocations of `f`. -/
def withRetry.go (f : Nat → Option String) : Nat → Nat → Option String → Option String × Nat
  | 0, calls, err => (err, calls)
  | Nat.succ fuel, calls, _ =>
    match f calls with
    | none => (none, calls + 1)
    | some e => withRetry.go f fuel (calls + 1) (some e)

/-- `withRetry(retries, f)`.  `retries` is a Go `int`; the loop
`for i := 0; i < retries` runs `max retries 0` times, and the named return
`err` starts at the zero value `nil`. -/
def withRetry (retries : Int) (f : Nat → Option String) : Option String × Nat :=
  withRetry.go f retries.toNat 0 none

/-! ## Decode primitives (`encoding/json` semantics for the declared shapes) -/

/-- Decode an `int`/`int64` struct field from an (optional) object member:
an absent key or `null` leaves the zero value, a number is taken as is,
anything else is an unmarshal error. -/
def Json.asInt : Option Json → Except String Int
  | none => .ok 0
  | some .null => .ok 0
  | some (.num n) => .ok n
  | some _ => .error "json unmarshal: cannot unmarshal value into field of type int"

/-- Decode a `string` struct field from an (optional) object member. -/
def Json.asStr : Option Json → Except String String
  | none => .ok ""
  | some .null => .ok ""
  | some (.str s) => .ok s
  | some _ => .error "json unmarshal: cannot unmarshal value into field of type string"

/-- Decode a slice field `[]T` from an (optional) object member: an absent
key or `null` yields the nil slice (`none`), an array yields a non-nil
slice whose elements are decoded with `dec`, anything else is an
unmarshal error. -/
def Json.asListOf (dec : Json → Except String α) :
    Option Json → Except String (Option (List α))
  | none => .ok none
  | some .null => .ok none
  | some (.arr l) => (l.mapM dec).map some
  | some _ => .error "json unmarshal: cannot unmarshal value into field of slice type"

/-! ## Entities

The entity types (`Build`, `oneProperty`, `Change`, `TestOccurrence`,
`ProblemOccurrence`) are declared in a repository file that is not among
the provided sources; `client.go` only uses them.  They are modelled from
the spec, each restricted to what the claims exercise. -/

/-- Modelled from the spec: the `Build` entity ("identity (numeric ID,
build-type ID), state fields ..."); the missing repository file declares
the full struct.  Only the numeric `ID` field is relevant to the claims,
decoded from the wire key `id`. -/
structure Build where
  id : Int

/-- Decode one `Build` array element: an object fills the fields (`id`
from the `id` member), `null` leaves the zero value (nil-pointer elements
of `[]*Build` are likewise useless zero builds here), anything else is an
unmarshal error. -/
def decodeBuild : Json → Except String Build
  | .null => .ok ⟨0⟩
  | .obj kvs => (Json.asInt (Json.lookupCI kvs "id")).map Build.mk
  | _ => .error "json unmarshal: cannot unmarshal value into Build"

/-- Decode into `var build *Build` (client.go:130): a JSON `null` leaves
the nil pointer, an object allocates and fills a `Build`. -/
def decodeBuildPtr : Json → Except String (Option Build)
  | .null => .ok none
  | j => (decodeBuild j).map some

/-- Modelled from the spec: `oneProperty` ("Property: a name/value pair"),
declared in the missing repository file; `client.go` constructs it as
`oneProperty{k, v}` and it marshals/unmarshals under the keys
`name`/`value`. -/
structure oneProperty where
  name : String
  value : String

/-- Decode one `oneProperty` array element. -/
def decodeOneProperty : Json → Except String oneProperty
  | .null => .ok ⟨"", ""⟩
  | .obj kvs =>
    match Json.asStr (Json.lookupCI kvs "name") with
    | .error e => .error e
    | .ok n =>
      match Json.asStr (Json.lookupCI kvs "value") with
      | .error e => .error e
      | .ok v => .ok ⟨n, v⟩
  | _ => .error "json unmarshal: cannot unmarshal value into oneProperty"

/-- Modelled from the spec: `Change` is a "flat record ... decoded
generically, fields not interpreted beyond pass-through"; the payload is
carried opaquely. -/
structure Change where
  raw : Json

/-- Pass-through decode of one `Change` element. -/
def decodeChange (j : Json) : Except String Change := .ok ⟨j⟩

/-- Modelled from the spec: `TestOccurrence`, a flat pass-through record
like `Change`. -/
structure TestOccurrence where
  raw : Json

/-- Pass-through decode of one `TestOccurrence` element. -/
def decodeTestOccurrence (j : Json) : Except String TestOccurrence := .ok ⟨j⟩

/-! ## Response envelopes and the decode step of each operation

Each anonymous struct literal of `client.go` becomes a named structure.
Decoding a whole response struct: JSON `null` is a no-op (the struct keeps
its zero value), an object fills the declared fields, any other JSON value
is an unmarshal error. -/

/-- `struct { Count int; Build []*Build }` (SearchBuild, client.go:75-78,
and GetQueuedBuilds, client.go:109-112). -/
structure SearchResp where
  count : Int
  build : Option (List Build)

def decodeSearchResp : Json → Except String SearchResp
  | .null => .ok ⟨0, none⟩
  | .obj kvs =>
    match Json.asInt (Json.lookupCI kvs "count") with
    | .error e => .error e
    | .ok c =>
      match Json.asListOf decodeBuild (Json.lookupCI kvs "build") with
      | .error e => .error e
      | .ok b => .ok ⟨c, b⟩
  | _ => .error "json unmarshal: cannot unmarshal value into struct"

/-- `type builds struct { Count int; Href string; NextHref string;
Build []Build }` (GetBuildID, client.go:149-154). -/
structure BuildsPage where
  count : Int
  href : String
  nextHref : String
  build : Option (List Build)

def decodeBuildsPage : Json → Except String BuildsPage
  | .null => .ok ⟨0, "", "", none⟩
  | .obj kvs =>
    match Json.asInt (Json.lookupCI kvs "count") with
    | .error e => .error e
    | .ok c =>
      match Json.asStr (Json.lookupCI kvs "href") with
      | .error e => .error e
      | .ok h =>
        match Json.asStr (Json.lookupCI kvs "nextHref") with
        | .error e => .error e
        | .ok nh =>
          match Json.asListOf decodeBuild (Json.lookupCI kvs "build") with
          | .error e => .error e
          | .ok b => .ok ⟨c, h, nh, b⟩
  | _ => .error "json unmarshal: cannot unmarshal value into struct"

/-- Decode into `var build *builds` (client.go:158): `null` leaves the nil
pointer. -/
def decodeBuildsPagePtr : Json → Except String (Option BuildsPage)
  | .null => .ok none
  | j => (decodeBuildsPage j).map some

/-- `struct { Property []oneProperty }` (GetBuildProperties,
client.go:177-179). -/
structure PropsResp where
  property : Option (List oneProperty)

def decodePropsResp : Json → Except String PropsResp
  | .null => .ok ⟨none⟩
  | .obj kvs => (Json.asListOf decodeOneProperty (Json.lookupCI kvs "property")).map PropsResp.mk
  | _ => .error "json unmarshal: cannot unmarshal value into struct"

/-- `struct { Change []Change }` (GetChanges, client.go:197-199). -/
structure ChangesResp where
  change : Option (List Change)

def decodeChangesResp : Json → Except String ChangesResp
  | .null => .ok ⟨none⟩
  | .obj kvs => (Json.asListOf decodeChange (Json.lookupCI kvs "change")).map ChangesResp.mk
  | _ => .error "json unmarshal: cannot unmarshal value into struct"

/-- `struct { Count int64; HREF string; TestOccurrence []TestOccurrence }`
(GetTests, client.go:235-239). -/
structure TestsResp where
  count : Int
  href : String
  testOccurrence : Option (List TestOccurrence)

def decodeTestsResp : Json → Except String TestsResp
  | .null => .ok ⟨0, "", none⟩
  | .obj kvs =>
    match Json.asInt (Json.lookupCI kvs "count") with
    | .error e => .error e
    | .ok c =>
      match Json.asStr (Json.lookupCI kvs "href") with
      | .error e => .error e
      | .ok h =>
        match Json.asListOf decodeTestOccurrence (Json.lookupCI kvs "testOccurrence") with
        | .error e => .error e
        | .ok t => .ok ⟨c, h, t⟩
  | _ => .error "json unmarshal: cannot unmarshal value into struct"

/-! ## Per-operation response handling

Each function below is the decode-and-post-process slice of the
corresponding exported method.  Its argument is the outcome of the
request layer: `.error e` when the request (after any retrying) failed
with error `e`, `.ok j` when the response body parsed as the JSON value
`j`.  The retry wiring itself is modelled separately (`runOpRequest`). -/

/-- `SearchBuild` (client.go:72-92): a decode/transport failure is
propagated; otherwise the `Build` slice is returned with a nil error — a
nil slice (from `"build": null` or an absent key) is the empty list to
its consumers.  (`convertInputs` normalizes fields of `Build` that are
not modelled here.) -/
def SearchBuild (body : Except String Json) : Except String (List Build) :=
  match body with
  | .error e => .error e
  | .ok j => (decodeSearchResp j).map fun r => r.build.getD []

/-- `GetBuild` (client.go:128-146): fails with "build not found" when the
decoded `*Build` is nil. -/
def GetBuild (body : Except String Json) : Except String Build :=
  match body with
  | .error e => .error e
  | .ok j =>
    match decodeBuildPtr j with
    | .error e => .error e
    | .ok none => .error "build not found"
    | .ok (some b) => .ok b

/-- `GetBuildID` (client.go:148-172).  The result is `none` when the Go
code panics (indexing `build.Build[0]` out of range), and otherwise
`some (s, err)` for the returned string and error pair. -/
def GetBuildID (body : Except String Json) : Option (String × Option String) :=
  match body with
  | .error e => some ("ID not found", some e)
  | .ok j =>
    match decodeBuildsPagePtr j with
    | .error e => some ("ID not found", some e)
    | .ok none => some ("ID not found", some "build not found")
    | .ok (some page) =>
      match (page.build.getD []).head? with
      | none => none
      | some b => some (toString b.id, none)

/-- The loop `m := make(map[string]string); for _, prop := range props {
m[prop.Name] = prop.Value }` (client.go:189-192), with the Go map read
through its lookup function. -/
def propsToMap (props : List oneProperty) : String → Option String :=
  props.foldl (fun m p => fun k => if k = p.name then some p.value else m k) (fun _ => none)

/-- `GetBuildProperties` (client.go:174-194). -/
def GetBuildProperties (body : Except String Json) : Except String (String → Option String) :=
  match body with
  | .error e => .error e
  | .ok j => (decodePropsResp j).map fun r => propsToMap (r.property.getD [])

/-- `GetChanges` (client.go:196-212): fails with "changes not found" when
the decoded `Change` slice is nil. -/
def GetChanges (body : Except String Json) : Except String (List Change) :=
  match body with
  | .error e => .error e
  | .ok j =>
    match decodeChangesResp j with
    | .error e => .error e
    | .ok r =>
      match r.change with
      | none => .error "changes not found"
      | some l => .ok l

/-- `GetTests` (client.go:234-254): returns `tests.TestOccurrence`
(possibly the nil slice, i.e. the empty list) with a nil error. -/
def GetTests (body : Except String Json) : Except String (List TestOccurrence) :=
  match body with
  | .error e => .error e
  | .ok j => (decodeTestsResp j).map fun r => r.testOccurrence.getD []

/-! ## URL resolution (`addProtocol`, client.go:290-302)

Go strings are `List Char` here so that substring reasoning is possible.
```go
host := c.host
if strings.HasSuffix(host, "/") {
    host = strings.TrimSuffix(host, "/")
}
prefix := "https://"
if strings.Contains(strings.ToLower(host), "http") {
    prefix = ""
}
return fmt.Sprintf("%s%s%s", prefix, host, path)
```
-/

/-- `strings.HasPrefix pat s` on char lists. -/
def startsWith : List Char → List Char → Bool
  | [], _ => true
  | _ :: _, [] => false
  | p :: ps, c :: cs => p = c && startsWith ps cs

/-- `strings.Contains s pat` on char lists: `pat` occurs contiguously in
`s`. -/
def containsSeq (pat : List Char) : List Char → Bool
  | [] => pat.isEmpty
  | c :: rest => startsWith pat (c :: rest) || containsSeq pat rest

/-- `strings.TrimSuffix(host, "/")` guarded by `strings.HasSuffix(host, "/")`:
drop one trailing `'/'` if present. -/
def trimOneSlash (host : List Char) : List Char :=
  if host.getLast? = some '/' then host.dropLast else host

/-- The literal `"http"`. -/
def httpPat : List Char := ['h', 't', 't', 'p']

/-- The literal `"https://"`. -/
def httpsScheme : List Char := ['h', 't', 't', 'p', 's', ':', '/', '/']

/-- `addProtocol` (client.go:290-302), resolving a request path against
the configured host. -/
def addProtocol (host path : List Char) : List Char :=
  let h := trimOneSlash host
  let pre := if containsSeq httpPat (h.map Char.toLower) then [] else httpsScheme
  pre ++ h ++ path

/-! ## Queue-build request serialization (`QueueBuild`, client.go:38-56)

The anonymous request struct marshals in field declaration order with
`omitempty` on `buildTypeId`, the inner `property` list, `branchName` and
`personal`; the `properties` envelope itself has no `omitempty` and is
always emitted.  `BranchName` is only assigned when the argument is
non-empty (the `refs/heads/` prefixing line is commented out in the
source), `Personal` is hardcoded to the string `"true"`, and each map
entry `k,v` is appended as `oneProperty{k, v}`.  The Go map's iteration
order is unspecified, so the properties are taken as an already-ordered
list of entries. -/

/-- The JSON body `QueueBuild` marshals and POSTs to the build queue. -/
def queueBuildBody (buildTypeID branchName : String)
    (props : List (String × String)) : Json :=
  Json.obj
    ((if buildTypeID = "" then [] else [("buildTypeId", Json.str buildTypeID)]) ++
     [("properties", Json.obj
        (if props = [] then []
         else [("property", Json.arr (props.map fun p =>
                  Json.obj [("name", Json.str p.1), ("value", Json.str p.2)]))]))] ++
     (if branchName = "" then [] else [("branchName", Json.str branchName)]) ++
     [("personal", Json.str "true")])

/-! ## The client record and the retry wiring of each exported method -/

/-- The `Client` struct (client.go:17-23).  The `*http.Client` handle is
opaque; only its identity matters. -/
structure Client where
  httpClient : Nat
  username : String
  password : String
  host : String
  debug : Bool

/-- The exported methods of `*Client`. -/
inductive ClientOp where
  | setDebug (d : Bool)
  | queueBuild
  | searchBuild
  | getQueuedBuilds
  | getBuild
  | getBuildID
  | getBuildProperties
  | getChanges
  | getProblems
  | getTests
  | cancelBuild
  | getBuildLog
  deriving DecidableEq

/-- The effect of each exported method on the receiver's fields.  In the
source, `SetDebug` assigns `c.debug = debug` (client.go:34-36); no other
method assigns to any field of `c` — they only read `host`, `username`,
`password`, `debug` and `HTTPClient`. -/
def applyOp (c : Client) : ClientOp → Client
  | .setDebug d => { c with debug := d }
  | .queueBuild => c
  | .searchBuild => c
  | .getQueuedBuilds => c
  | .getBuild => c
  | .getBuildID => c
  | .getBuildProperties => c
  | .getChanges => c
  | .getProblems => c
  | .getTests => c
  | .cancelBuild => c
  | .getBuildLog => c

/-- The request layer of each operation, with the unit of work (one
request+decode attempt) abstracted as `t` and instrumented with the
number of attempts made.  `QueueBuild`, `SearchBuild`, `GetQueuedBuilds`,
`GetBuild`, `GetBuildID` and `GetBuildProperties` each set `retries := 8`
and run `withRetry(retries, ...)` (client.go:59-60, 79-80, 113-114,
132-133, 159-160, 181-182); `GetChanges`, `GetProblems`, `GetTests`,
`CancelBuild` and `GetBuildLog` call `doRequest`/`doNotJSONRequest`
directly, exactly once (client.go:202, 222, 248, 263, 267).  `SetDebug`
makes no request. -/
def runOpRequest (op : ClientOp) (t : Nat → Option String) : Option String × Nat :=
  match op with
  | .setDebug _ => (none, 0)
  | .queueBuild => withRetry 8 t
  | .searchBuild => withRetry 8 t
  | .getQueuedBuilds => withRetry 8 t
  | .getBuild => withRetry 8 t
  | .getBuildID => withRetry 8 t
  | .getBuildProperties => withRetry 8 t
  | .getChanges => (t 0, 1)
  | .getProblems => (t 0, 1)
  | .getTests => (t 0, 1)
  | .cancelBuild => (t 0, 1)
  | .getBuildLog => (t 0, 1)

/-! ## Properties of the retry policy -/

/-- If the work fails on the first `k` invocations after `calls` and
succeeds on the next one, and at least `k + 1` loop iterations remain,
the loop stops right after that success. -/
theorem withRetry.go_success (f : Nat → Option String) :
    ∀ (fuel calls : Nat) (err : Option String) (k : Nat), k < fuel →
      (∀ j, j < k → (f (calls + j)).isSome) → f (calls + k) = none →
      withRetry.go f fuel calls err = (none, calls + k + 1) := by
  intro fuel
  induction fuel with
  | zero => intro calls err k hk; omega
  | succ n ih =>
    intro calls err k hk hall hsucc
    cases k with
    | zero =>
      have h0 : f calls = none := by simpa using hsucc
      simp [withRetry.go, h0]
    | succ k =>
      have h0 : (f calls).isSome := by simpa using hall 0 (Nat.succ_pos k)
      obtain ⟨e, he⟩ := Option.isSome_iff_exists.mp h0
      have step : withRetry.go f (n + 1) calls err
          = withRetry.go f n (calls + 1) (some e) := by
        simp [withRetry.go, he]
      rw [step]
      have hall' : ∀ j, j < k → (f (calls + 1 + j)).isSome := by
        intro j hj
        have := hall (j + 1) (by omega)
        have harg : calls + (j + 1) = calls + 1 + j := by omega
        rwa [harg] at this
      have hsucc' : f (calls + 1 + k) = none := by
        have harg : calls + (k + 1) = calls + 1 + k := by omega
        rwa [harg] at hsucc
      have := ih (calls + 1) (some e) k (by omega) hall' hsucc'
      rw [this]
      have : calls + 1 + k + 1 = calls + (k + 1) + 1 := by omega
      rw [this]

/-- If the work fails on every one of the remaining `fuel` invocations,
the loop exhausts them and returns the last error. -/
theorem withRetry.go_allFail (f : Nat → Option String) :
    ∀ (fuel calls : Nat) (err : Option String), 0 < fuel →
      (∀ j, j < fuel → (f (calls + j)).isSome) →
      withRetry.go f fuel calls err = (f (calls + fuel - 1), calls + fuel) := by
  intro fuel
  induction fuel with
  | zero => intro calls err h; omega
  | succ n ih =>
    intro calls err _ hall
    have h0 : (f calls).isSome := by simpa using hall 0 (Nat.succ_pos n)
    obtain ⟨e, he⟩ := Option.isSome_iff_exists.mp h0
    have step : withRetry.go f (n + 1) calls err
        = withRetry.go f n (calls + 1) (some e) := by
      simp [withRetry.go, he]
    rw [step]
    cases n with
    | zero =>
      simp [withRetry.go, he]
    | succ m =>
      have hall' : ∀ j, j < m + 1 → (f (calls + 1 + j)).isSome := by
        intro j hj
        have := hall (j + 1) (by omega)
        have harg : calls + (j + 1) = calls + 1 + j := by omega
        rwa [harg] at this
      have := ih (calls + 1) (some e) (Nat.succ_pos m) hall'
      rw [this]
      have h1 : calls + 1 + (m + 1) - 1 = calls + (m + 1 + 1) - 1 := by omega
      have h2 : calls + 1 + (m + 1) = calls + (m + 1 + 1) := by omega
      rw [h1, h2]

/-- C1: `withRetry(8, f)`: for every `N` with `1 ≤ N ≤ 8`, if `f` fails on
its first `N - 1` invocations and succeeds on the `N`-th, the call returns
a nil error after invoking `f` exactly `N` times; if `f` fails on every
invocation, `f` is invoked exactly 8 times and the error of the 8th
invocation is returned. -/
theorem withRetry_attempt_count (N : Nat) (f : Nat → Option String)
    (h1 : 1 ≤ N) (h8 : N ≤ 8) :
    ((∀ i, i < N - 1 → (f i).isSome) → f (N - 1) = none →
        withRetry 8 f = (none, N)) ∧
    ((∀ i, i < 8 → (f i).isSome) → withRetry 8 f = (f 7, 8)) := by
  constructor
  · intro hall hsucc
    have := withRetry.go_success f 8 0 none (N - 1) (by omega)
      (by intro j hj; simpa using hall j hj) (by simpa using hsucc)
    have hN : 0 + (N - 1) + 1 = N := by omega
    rw [hN] at this
    exact this
  · intro hall
    have := withRetry.go_allFail f 8 0 none (by omega)
      (by intro j hj; simpa using hall j hj)
    simpa using this

/-- A unit of work that fails on invocations 0 and 1 and succeeds from
invocation 2 on. -/
def retryProbe (i : Nat) : Option String :=
  if i < 2 then some "transient" else none

/-- Witness for C1 at `N = 3`: two failures then a success give a nil
error after exactly 3 invocations. -/
theorem withRetry_attempt_count_witness :
    withRetry 8 retryProbe = (none, 3) :=
  (withRetry_attempt_count 3 retryProbe (by decide) (by decide)).1
    (by decide) (by decide)

/-- C10: for every `retries ≤ 0`, `withRetry(retries, f)` performs no
invocation of `f` and returns the zero-valued (nil) error. -/
theorem withRetry_nonpos (retries : Int) (f : Nat → Option String)
    (h : retries ≤ 0) : withRetry retries f = (none, 0) := by
  unfold withRetry
  rw [Int.toNat_of_nonpos h]
  rfl

/-- Witness for C10 at `retries = -5`. -/
theorem withRetry_nonpos_witness : withRetry (-5) retryProbe = (none, 0) :=
  withRetry_nonpos (-5) retryProbe (by decide)

/-! ## The retry wiring of the operations (C2) -/

/-- A unit of work whose first invocation fails and whose later
invocations succeed. -/
def tFlaky (i : Nat) : Option String :=
  if i = 0 then some "connection reset" else none

/-- C2 counterexample: `GetChanges` does not execute its unit of work
through the retry policy — on a work item that fails once and then
succeeds, its request layer performs a single invocation and surfaces the
first error, while `withRetry 8` would retry and succeed on the second
invocation. -/
theorem getChanges_not_retried :
    runOpRequest ClientOp.getChanges tFlaky = (some "connection reset", 1) ∧
    withRetry 8 tFlaky = (none, 2) := by
  exact ⟨rfl, rfl⟩

/-- C2 amended: only the six build-oriented operations (queue build,
search builds, get queued builds, get build, get build ID, get resulting
properties) execute their unit of work through `withRetry` with the
constant bound 8 — on a work item that fails once then succeeds they
invoke it twice and return a nil error; the remaining operations (get
changes, get problems, get tests, cancel build, get raw log) invoke the
unit of work exactly once, with no retry, returning its first error. -/
theorem retry_wiring (t : Nat → Option String)
    (hfail : (t 0).isSome) (hok : t 1 = none) :
    (runOpRequest ClientOp.queueBuild t = (none, 2) ∧
     runOpRequest ClientOp.searchBuild t = (none, 2) ∧
     runOpRequest ClientOp.getQueuedBuilds t = (none, 2) ∧
     runOpRequest ClientOp.getBuild t = (none, 2) ∧
     runOpRequest ClientOp.getBuildID t = (none, 2) ∧
     runOpRequest ClientOp.getBuildProperties t = (none, 2)) ∧
    (runOpRequest ClientOp.getChanges t = (t 0, 1) ∧
     runOpRequest ClientOp.getProblems t = (t 0, 1) ∧
     runOpRequest ClientOp.getTests t = (t 0, 1) ∧
     runOpRequest ClientOp.cancelBuild t = (t 0, 1) ∧
     runOpRequest ClientOp.getBuildLog t = (t 0, 1)) := by
  have h2 : withRetry 8 t = (none, 2) := by
    have h := withRetry.go_success t 8 0 none 1 (by omega)
      (by
        intro j hj
        have hj0 : j = 0 := by omega
        rw [hj0]
        exact hfail)
      hok
    exact h
  exact ⟨⟨h2, h2, h2, h2, h2, h2⟩, ⟨rfl, rfl, rfl, rfl, rfl⟩⟩

/-- Witness for the amended C2 on the concrete flaky work item. -/
theorem retry_wiring_witness :
    runOpRequest ClientOp.queueBuild tFlaky = (none, 2) ∧
    runOpRequest ClientOp.getTests tFlaky = (some "connection reset", 1) :=
  ⟨(retry_wiring tFlaky (by decide) (by decide)).1.1,
   (retry_wiring tFlaky (by decide) (by decide)).2.2.2.1⟩

/-! ## Absence handling (C5, C6) and the empty-page lookup (C3) -/

/-- C5: a search-builds response whose `build` member is `null` or absent
decodes to the nil slice and `SearchBuild` returns the empty list with a
nil error (whenever the rest of the response decodes); a get-build-by-ID
response from which no build record decodes (the nil `*Build`) makes
`GetBuild` return no build and the "build not found" error. -/
theorem absence_handling_builds :
    (∀ kvs : List (String × Json),
      (Json.lookupCI kvs "build" = none ∨ Json.lookupCI kvs "build" = some Json.null) →
      ∀ r, decodeSearchResp (Json.obj kvs) = Except.ok r →
        SearchBuild (Except.ok (Json.obj kvs)) = Except.ok []) ∧
    GetBuild (Except.ok Json.null) = Except.error "build not found" := by
  constructor
  · intro kvs habs r hdec
    have hb : Json.asListOf decodeBuild (Json.lookupCI kvs "build")
        = Except.ok (none : Option (List Build)) := by
      rcases habs with h | h <;> rw [h] <;> rfl
    cases hc : Json.asInt (Json.lookupCI kvs "count") with
    | error e =>
      exfalso
      simp only [decodeSearchResp] at hdec
      rw [hc] at hdec
      exact Except.noConfusion hdec
    | ok c =>
      show (decodeSearchResp (Json.obj kvs)).map (fun r => r.build.getD []) = Except.ok []
      simp only [decodeSearchResp]
      rw [hc, hb]
      rfl
  · rfl

/-- Witness for C5: a response carrying only a count, no `build` member. -/
theorem absence_handling_builds_witness :
    SearchBuild (Except.ok (Json.obj [("count", Json.num 0)])) = Except.ok [] ∧
    GetBuild (Except.ok Json.null) = Except.error "build not found" :=
  ⟨absence_handling_builds.1 [("count", Json.num 0)] (Or.inl rfl) ⟨0, none⟩ rfl,
   absence_handling_builds.2⟩

/-- C6: a changes response without a `change` member decodes to the nil
slice and `GetChanges` returns no list and the "changes not found" error;
a tests response without a `testOccurrence` member yields the empty list
and a nil error from `GetTests` (whenever the rest of the response
decodes) — `GetTests` never fails on an absent test list. -/
theorem absence_handling_changes_tests :
    (∀ kvs : List (String × Json), Json.lookupCI kvs "change" = none →
      GetChanges (Except.ok (Json.obj kvs)) = Except.error "changes not found") ∧
    (∀ kvs : List (String × Json), Json.lookupCI kvs "testOccurrence" = none →
      ∀ r, decodeTestsResp (Json.obj kvs) = Except.ok r →
        GetTests (Except.ok (Json.obj kvs)) = Except.ok []) := by
  constructor
  · intro kvs hnone
    have hdec : decodeChangesResp (Json.obj kvs) = Except.ok ⟨none⟩ := by
      simp only [decodeChangesResp]
      rw [hnone]
      rfl
    show (match decodeChangesResp (Json.obj kvs) with
      | .error e => Except.error e
      | .ok r =>
        match r.change with
        | none => Except.error "changes not found"
        | some l => Except.ok l) = Except.error "changes not found"
    rw [hdec]
  · intro kvs hnone r hdec
    cases hc : Json.asInt (Json.lookupCI kvs "count") with
    | error e =>
      exfalso
      simp only [decodeTestsResp] at hdec
      rw [hc] at hdec
      exact Except.noConfusion hdec
    | ok c =>
      cases hh : Json.asStr (Json.lookupCI kvs "href") with
      | error e =>
        exfalso
        simp only [decodeTestsResp] at hdec
        rw [hc, hh] at hdec
        exact Except.noConfusion hdec
      | ok hrefv =>
        show (decodeTestsResp (Json.obj kvs)).map (fun r => r.testOccurrence.getD [])
            = Except.ok []
        simp only [decodeTestsResp]
        rw [hc, hh, hnone]
        rfl

/-- Witness for C6: the empty JSON object as response body. -/
theorem absence_handling_changes_tests_witness :
    GetChanges (Except.ok (Json.obj [])) = Except.error "changes not found" ∧
    GetTests (Except.ok (Json.obj [])) = Except.ok [] :=
  ⟨absence_handling_changes_tests.1 [] rfl,
   absence_handling_changes_tests.2 [] rfl ⟨0, "", none⟩ rfl⟩

/-- C3 (code bug): on the well-formed no-match response
`{"count":0,"build":[]}` the lookup `GetBuildID` indexes `build.Build[0]`
on an empty slice and panics (result `none`) instead of returning the
"ID not found" placeholder with an error; only a `null` body reaches the
intended not-found branch. -/
theorem getBuildID_empty_page :
    GetBuildID (Except.ok (Json.obj [("count", Json.num 0), ("build", Json.arr [])]))
      = none ∧
    GetBuildID (Except.ok Json.null)
      = some ("ID not found", some "build not found") :=
  ⟨rfl, rfl⟩

/-! ## Resulting properties: last write wins (C8) -/

/-- One more map assignment `m[p.name] = p.value` after the loop over `l`. -/
theorem propsToMap_append (l : List oneProperty) (p : oneProperty) (k : String) :
    propsToMap (l ++ [p]) k = if k = p.name then some p.value else propsToMap l k := by
  simp [propsToMap, List.foldl_append]

/-- The loop of `GetBuildProperties` realizes last-write-wins: the map
lookup at `k` is the value of the last property named `k`. -/
theorem propsToMap_last (l : List oneProperty) (k : String) :
    propsToMap l k = ((l.filter fun p => p.name == k).getLast?).map oneProperty.value := by
  induction l using List.reverseRecOn with
  | nil => rfl
  | append_singleton l p ih =>
    rw [propsToMap_append, List.filter_append]
    by_cases h : k = p.name
    · rw [if_pos h]
      have hb : (p.name == k) = true := by simp [h]
      simp [List.filter_cons, hb, List.getLast?_concat]
    · rw [if_neg h]
      have hb : (p.name == k) = false :=
        beq_eq_false_iff_ne.mpr fun hh => h hh.symm
      simp only [List.filter_cons, hb, Bool.false_eq_true, if_false, List.filter_nil,
        List.append_nil]
      exact ih

/-- C8: the mapping `GetBuildProperties` builds assigns to each name the
value of the last decoded entry bearing that name; in particular the
response `{"property":[{"name":"a","value":"1"},{"name":"a","value":"2"}]}`
yields the mapping sending `"a"` to `"2"` and every other name to
nothing. -/
theorem buildProperties_last_wins (l : List oneProperty) (k : String) :
    propsToMap l k = ((l.filter fun p => p.name == k).getLast?).map oneProperty.value ∧
    GetBuildProperties (Except.ok (Json.obj [("property", Json.arr
        [Json.obj [("name", Json.str "a"), ("value", Json.str "1")],
         Json.obj [("name", Json.str "a"), ("value", Json.str "2")]])]))
      = Except.ok (propsToMap [⟨"a", "1"⟩, ⟨"a", "2"⟩]) ∧
    propsToMap [⟨"a", "1"⟩, ⟨"a", "2"⟩] "a" = some "2" ∧
    ∀ s, s ≠ "a" → propsToMap [⟨"a", "1"⟩, ⟨"a", "2"⟩] s = none := by
  refine ⟨propsToMap_last l k, rfl, rfl, ?_⟩
  intro s hs
  simp [propsToMap, hs]

/-- Witness for C8 on the duplicate-name example. -/
theorem buildProperties_last_wins_witness :
    propsToMap [⟨"a", "1"⟩, ⟨"a", "2"⟩] "a" = some "2" ∧
    propsToMap [⟨"a", "1"⟩, ⟨"a", "2"⟩] "b" = none :=
  ⟨(buildProperties_last_wins [] "").2.2.1,
   (buildProperties_last_wins [] "").2.2.2 "b" (by decide)⟩

/-! ## Queue-build serialization (C7) -/

/-- C7: for every non-empty branch name, the queue-build body sets
`personal` to the string `"true"`, sets `branchName` to the branch name
verbatim, and (when the property map is non-empty) wraps its entries in
the `properties.property` envelope as name/value pairs. -/
theorem queueBuild_serialization (bt B : String) (props : List (String × String))
    (hB : B ≠ "") :
    (queueBuildBody bt B props).getKey "personal" = some (Json.str "true") ∧
    (queueBuildBody bt B props).getKey "branchName" = some (Json.str B) ∧
    (props ≠ [] →
      ((queueBuildBody bt B props).getKey "properties").bind
          (fun env => env.getKey "property")
        = some (Json.arr (props.map fun p =>
            Json.obj [("name", Json.str p.1), ("value", Json.str p.2)]))) := by
  by_cases hbt : bt = "" <;> by_cases hp : props = [] <;>
    simp [queueBuildBody, Json.getKey, hbt, hp, hB, Option.bind]

/-- Witness for C7: branch `"feature/x"` and the single property
`{"k":"v"}` give exactly one name/value entry. -/
theorem queueBuild_serialization_witness :
    (queueBuildBody "bt1" "feature/x" [("k", "v")]).getKey "personal"
      = some (Json.str "true") ∧
    (queueBuildBody "bt1" "feature/x" [("k", "v")]).getKey "branchName"
      = some (Json.str "feature/x") ∧
    ((queueBuildBody "bt1" "feature/x" [("k", "v")]).getKey "properties").bind
        (fun env => env.getKey "property")
      = some (Json.arr [Json.obj [("name", Json.str "k"), ("value", Json.str "v")]]) := by
  obtain ⟨h1, h2, h3⟩ :=
    queueBuild_serialization "bt1" "feature/x" [("k", "v")] (by decide)
  exact ⟨h1, h2, h3 (by decide)⟩

/-! ## URL resolution (C4) -/

/-- `startsWith` finds exactly the lists that extend `pat`. -/
theorem startsWith_iff (pat : List Char) :
    ∀ s, startsWith pat s = true ↔ ∃ t, pat ++ t = s := by
  induction pat with
  | nil =>
    intro s
    simp [startsWith]
  | cons p ps ih =>
    intro s
    cases s with
    | nil => simp [startsWith]
    | cons c cs =>
      simp only [startsWith, Bool.and_eq_true, decide_eq_true_eq, ih]
      constructor
      · rintro ⟨hpc, t, ht⟩
        exact ⟨t, by rw [List.cons_append, hpc, ht]⟩
      · rintro ⟨t, ht⟩
        rw [List.cons_append] at ht
        injection ht with h1 h2
        exact ⟨h1, t, h2⟩

/-- `containsSeq` finds exactly the contiguous occurrences. -/
theorem containsSeq_iff (pat : List Char) :
    ∀ s, containsSeq pat s = true ↔ ∃ a t, a ++ pat ++ t = s := by
  intro s
  induction s with
  | nil =>
    constructor
    · intro h
      have hp : pat = [] := by
        cases pat with
        | nil => rfl
        | cons q qs => simp [containsSeq, List.isEmpty] at h
      exact ⟨[], [], by simp [hp]⟩
    · rintro ⟨a, t, ht⟩
      rcases List.append_eq_nil.mp ht with ⟨h2, rfl⟩
      rcases List.append_eq_nil.mp h2 with ⟨rfl, rfl⟩
      rfl
  | cons c cs ih =>
    simp only [containsSeq, Bool.or_eq_true, startsWith_iff, ih]
    constructor
    · rintro (⟨t, ht⟩ | ⟨a, t, ht⟩)
      · exact ⟨[], t, by simpa using ht⟩
      · exact ⟨c :: a, t, by simp [ht]⟩
    · rintro ⟨a, t, ht⟩
      cases a with
      | nil => exact Or.inl ⟨t, by simpa using ht⟩
      | cons a0 as =>
        rw [List.cons_append, List.cons_append] at ht
        injection ht with h1 h2
        exact Or.inr ⟨as, t, by simpa using h2⟩

/-- An occurrence of `pat` in `s ++ [c]` that cannot use the final
character (because `c` is not in `pat`) is an occurrence in `s`. -/
theorem occurrence_drop_concat {pat s : List Char} {c : Char}
    (hne : pat ≠ []) (hc : c ∉ pat)
    (h : ∃ a t, a ++ pat ++ t = s ++ [c]) : ∃ a t, a ++ pat ++ t = s := by
  obtain ⟨a, t, ht⟩ := h
  rcases List.eq_nil_or_concat t with rfl | ⟨q, c2, rfl⟩
  · rw [List.append_nil] at ht
    rcases List.eq_nil_or_concat pat with rfl | ⟨p2, cp, rfl⟩
    · exact absurd rfl hne
    · exfalso
      have h1 : (a ++ p2) ++ [cp] = s ++ [c] := by simpa [List.append_assoc] using ht
      obtain ⟨-, h2⟩ := List.append_inj' h1 rfl
      have hcp : cp = c := by simpa using h2
      subst hcp
      exact hc (by simp)
  · have h1 : (a ++ pat ++ q) ++ [c2] = s ++ [c] := by simpa [List.append_assoc] using ht
    obtain ⟨h2, -⟩ := List.append_inj' h1 rfl
    exact ⟨a, q, by simpa [List.append_assoc] using h2⟩

/-- Appending a character that does not occur in `pat` does not change
whether `pat` occurs. -/
theorem containsSeq_concat (pat s : List Char) (c : Char)
    (hne : pat ≠ []) (hc : c ∉ pat) :
    containsSeq pat (s ++ [c]) = containsSeq pat s := by
  cases h1 : containsSeq pat (s ++ [c]) <;> cases h2 : containsSeq pat s <;> try rfl
  · exfalso
    obtain ⟨a, t, ht⟩ := (containsSeq_iff pat s).mp h2
    have h3 : containsSeq pat (s ++ [c]) = true :=
      (containsSeq_iff pat (s ++ [c])).mpr ⟨a, t ++ [c], by rw [← ht]; simp⟩
    rw [h1] at h3
    exact Bool.noConfusion h3
  · exfalso
    have h3 := (containsSeq_iff pat s).mpr
      (occurrence_drop_concat hne hc ((containsSeq_iff pat (s ++ [c])).mp h1))
    rw [h2] at h3
    exact Bool.noConfusion h3

/-- C4: for every host not containing `"http"` in any letter case the
resolved URL is `https://` ++ host-with-one-trailing-slash-stripped ++
path; for every host containing `"http"` it is the stripped host ++ path
with no scheme inserted. -/
theorem addProtocol_resolution (host path : List Char) :
    (containsSeq httpPat (host.map Char.toLower) = false →
      addProtocol host path = httpsScheme ++ trimOneSlash host ++ path) ∧
    (containsSeq httpPat (host.map Char.toLower) = true →
      addProtocol host path = trimOneSlash host ++ path) := by
  have hbridge : containsSeq httpPat ((trimOneSlash host).map Char.toLower)
      = containsSeq httpPat (host.map Char.toLower) := by
    by_cases hs : host.getLast? = some '/'
    · have hne : host ≠ [] := by
        intro h
        rw [h] at hs
        exact Option.noConfusion hs
      have hlast : host.getLast hne = '/' := by
        have h2 := List.getLast?_eq_getLast host hne
        rw [hs] at h2
        exact (Option.some.inj h2).symm
      have hhost : host.dropLast ++ ['/'] = host := by
        conv_rhs => rw [← List.dropLast_append_getLast hne]
        rw [hlast]
      have hmap : host.map Char.toLower = host.dropLast.map Char.toLower ++ ['/'] := by
        conv_lhs => rw [← hhost]
        rw [List.map_append]
        rfl
      unfold trimOneSlash
      rw [if_pos hs, hmap, containsSeq_concat httpPat _ '/' (by decide) (by decide)]
    · unfold trimOneSlash
      rw [if_neg hs]
  constructor
  · intro hcond
    show (if containsSeq httpPat ((trimOneSlash host).map Char.toLower) then ([] : List Char)
        else httpsScheme) ++ trimOneSlash host ++ path
      = httpsScheme ++ trimOneSlash host ++ path
    rw [hbridge, hcond]
    rfl
  · intro hcond
    show (if containsSeq httpPat ((trimOneSlash host).map Char.toLower) then ([] : List Char)
        else httpsScheme) ++ trimOneSlash host ++ path
      = trimOneSlash host ++ path
    rw [hbridge, hcond]
    rfl

/-- Witness for C4: a bare host gets the scheme and loses its trailing
slash; a host that already names a scheme is used verbatim. -/
theorem addProtocol_resolution_witness :
    addProtocol "teamcity.example.com/".toList "/app/rest".toList
      = "https://teamcity.example.com/app/rest".toList ∧
    addProtocol "http://tc.local".toList "/x".toList = "http://tc.local/x".toList := by
  constructor
  · rw [(addProtocol_resolution "teamcity.example.com/".toList "/app/rest".toList).1
      (by decide)]
    decide
  · rw [(addProtocol_resolution "http://tc.local".toList "/x".toList).2 (by decide)]
    decide

/-! ## Client configuration immutability (C9) -/

/-- C9: every exported method leaves `host`, `username`, `password` and
the transport handle unchanged; `SetDebug` sets the debug flag and
changes nothing else (so the debug flag is the only field any exported
method mutates). -/
theorem client_config_immutable (c : Client) (op : ClientOp) (d : Bool) :
    (applyOp c op).host = c.host ∧
    (applyOp c op).username = c.username ∧
    (applyOp c op).password = c.password ∧
    (applyOp c op).httpClient = c.httpClient ∧
    applyOp c (ClientOp.setDebug d) = { c with debug := d } := by
  cases op <;> exact ⟨rfl, rfl, rfl, rfl, rfl⟩

end Teamcity
